import Mathlib

/-!
Verification of the semantic prompt cache engine and the resilient LLM
completion layer of the `compact` repository.

The Python sources are shallowly embedded:

* `CachedPromptEntry` mirrors the dataclass in
  `prompt_cache_service/db_handler/cache_db_handler.py`; Python floats are
  modelled by `ℚ`, UTC timestamps by `ℕ`, ids by `String`.
* The Chroma vector store (an external collaborator) is modelled as an
  association list from collection name to stored entries; its cosine
  nearest-neighbor `query` is modelled by sorting the stored entries by a
  distance function `dist` (a parameter, standing for cosine distance)
  and truncating at `n_results`.
* Every handler method is a function from the store state to a result
  paired with the successor state; read-only methods return the state
  unchanged, exceptions become `Except.error`.
* The nondeterministic inputs of the Python code (`uuid.uuid4()`,
  `datetime.now`, the embedding engine result, HTTP responses) are
  passed as explicit parameters.
-/

namespace PromptCache

open List

attribute [local semireducible] Rat.add Rat.sub Rat.mul Rat.ofScientific Rat.inv

deriving instance DecidableEq for Except

/-- The `CachedPromptEntry` dataclass from `cache_db_handler.py`,
field for field, with the same defaults. -/
structure CachedPromptEntry where
  entry_id : String
  project_id : String
  user_id : String
  key_embedding : List ℚ
  prompt : String
  answer : String
  created_at : ℕ
  times_accessed : ℕ
  last_accessed_at : ℕ
  compressed_prompt : String := ""
  compression_ratio : ℚ := 0
  original_tokens : ℕ := 0
  compressed_tokens : ℕ := 0
  score : ℚ := 1
  likes : ℕ := 0
  dislikes : ℕ := 0
deriving Repr, DecidableEq

/-- The Chroma client state: one named collection per project (plus, in the
real service, auxiliary collections; only project collections matter here). -/
abbrev ChromaDb := List (String × List CachedPromptEntry)

/-- `f"project_{project_id}"`, the collection name used for a project. -/
def collectionName (project_id : String) : String :=
  "project_" ++ project_id

/-- `client.get_collection(name)`: the stored entries of the named
collection, or `none` when it does not exist. -/
def getCollection (db : ChromaDb) (name : String) : Option (List CachedPromptEntry) :=
  (db.find? (fun c => c.1 == name)).map (fun c => c.2)

/-- Replace the contents of the named collection (models `collection.add`
and `collection.update`, which mutate the collection in place). -/
def setCollection (db : ChromaDb) (name : String) (ns : List CachedPromptEntry) : ChromaDb :=
  db.map (fun c => if c.1 == name then (c.1, ns) else c)

/-- `client.delete_collection(name)`. -/
def removeCollection (db : ChromaDb) (name : String) : ChromaDb :=
  db.filter (fun c => !(c.1 == name))

/-- `ChromaDbHandler._get_project_namespace`. -/
def get_project_namespace (db : ChromaDb) (project_id : String) :
    Option (List CachedPromptEntry) :=
  getCollection db (collectionName project_id)

/-- `ChromaDbHandler.project_namespaces`: the names of all collections. -/
def project_namespaces (db : ChromaDb) : List String :=
  db.map (fun c => c.1)

/-- `ChromaDbHandler.create_project_namespace`: raises `ValueError` when the
namespace already exists, otherwise creates an empty collection. -/
def create_project_namespace (db : ChromaDb) (project_id : String) :
    Except String Unit × ChromaDb :=
  match get_project_namespace db project_id with
  | some _ =>
      (.error ("Namespace for project " ++ project_id ++ " already exists."), db)
  | none => (.ok (), db ++ [(collectionName project_id, [])])

/-- `ChromaDbHandler._push_entry`: raises `ValueError` when the namespace is
absent, otherwise `collection.add` appends the entry. -/
def push_entry (db : ChromaDb) (entry : CachedPromptEntry) :
    Except String ChromaDb :=
  match get_project_namespace db entry.project_id with
  | none => .error ("No namespace found for project " ++ entry.project_id ++ ".")
  | some ns =>
      .ok (setCollection db (collectionName entry.project_id) (ns ++ [entry]))

/-- `CacheDbHandler.cache_prompt`: embeds the prompt (the embedding result,
the fresh uuid and the current time are parameters), builds the entry with
`times_accessed = 1`, `created_at = last_accessed_at = now` and zero votes,
and pushes it.  Any failure is logged and re-raised, leaving the store
untouched. -/
def cache_prompt (db : ChromaDb) (embedRes : Except String (List ℚ))
    (newId : String) (now : ℕ) (project_id user_id prompt answer : String)
    (compressed_prompt : String) (compression_ratio : ℚ)
    (original_tokens compressed_tokens : ℕ) :
    Except String String × ChromaDb :=
  match embedRes with
  | .error e => (.error e, db)
  | .ok key_embedding =>
      let entry : CachedPromptEntry :=
        { entry_id := newId
          project_id := project_id
          user_id := user_id
          key_embedding := key_embedding
          prompt := prompt
          answer := answer
          compressed_prompt := compressed_prompt
          compression_ratio := compression_ratio
          original_tokens := original_tokens
          compressed_tokens := compressed_tokens
          created_at := now
          times_accessed := 1
          last_accessed_at := now
          likes := 0
          dislikes := 0 }
      match push_entry db entry with
      | .error e => (.error e, db)
      | .ok db2 => (.ok entry.entry_id, db2)

/-- Ascending-by-distance order used by the modelled Chroma query. -/
def distAsc (a b : CachedPromptEntry × ℚ) : Prop := a.2 ≤ b.2

instance : DecidableRel distAsc := fun a b =>
  inferInstanceAs (Decidable (a.2 ≤ b.2))

/-- Model of `collection.query`: every stored entry annotated with its
distance to the query vector, sorted by ascending distance, truncated at
`n_results`.  `dist` stands for the cosine distance of the store. -/
def chromaQuery (dist : List ℚ → List ℚ → ℚ) (ns : List CachedPromptEntry)
    (query_embedding : List ℚ) (n_results : ℕ) :
    List (CachedPromptEntry × ℚ) :=
  ((ns.map (fun e => (e, dist query_embedding e.key_embedding))).insertionSort
      distAsc).take n_results

/-- `ChromaDbHandler._pull_entry`: empty list when the namespace is absent or
empty; otherwise query, convert `similarity = 1 - distance`, drop candidates
with `similarity < threshold`, and set the transient `score` field to the raw
similarity. -/
def pull_entry (dist : List ℚ → List ℚ → ℚ) (db : ChromaDb)
    (project_id : String) (query_embedding : List ℚ)
    (limit : ℕ) (threshold : ℚ) : List CachedPromptEntry :=
  match get_project_namespace db project_id with
  | none => []
  | some ns =>
      if ns.length = 0 then []
      else
        (chromaQuery dist ns query_embedding limit).filterMap (fun r =>
          let similarity := 1 - r.2
          if similarity < threshold then none
          else some { r.1 with score := similarity })

/-- `vote_boost = max(-0.1, min(0.2, (likes - dislikes) * 0.01))`. -/
def voteBoost (e : CachedPromptEntry) : ℚ :=
  max (-0.1) (min 0.2 (((e.likes : ℚ) - (e.dislikes : ℚ)) * 0.01))

/-- `hybrid_score = entry.score + vote_boost`. -/
def hybridScore (e : CachedPromptEntry) : ℚ :=
  e.score + voteBoost e

/-- Non-increasing hybrid-score order: the Python code sorts the candidate
pairs `(hybrid_score, entry)` with `sort(key=lambda x: x[0], reverse=True)`,
a stable descending sort by hybrid score alone. -/
def hybridDesc (a b : CachedPromptEntry) : Prop := hybridScore b ≤ hybridScore a

instance : DecidableRel hybridDesc := fun a b =>
  inferInstanceAs (Decidable (hybridScore b ≤ hybridScore a))

/-- `CacheDbHandler.lookup_prompt`: embed the prompt, pull a `3 × limit`
candidate pool above the threshold, stably re-rank it by descending hybrid
score and return the top `limit` entries.  Read-only: the returned state is
the input state. -/
def lookup_prompt (dist : List ℚ → List ℚ → ℚ) (db : ChromaDb)
    (embedRes : Except String (List ℚ)) (project_id : String)
    (limit : ℕ) (threshold : ℚ) :
    Except String (List CachedPromptEntry) × ChromaDb :=
  match embedRes with
  | .error e => (.error e, db)
  | .ok key_embeddings =>
      let candidates := pull_entry dist db project_id key_embeddings (limit * 3) threshold
      if candidates.isEmpty then (.ok [], db)
      else (.ok ((candidates.insertionSort hybridDesc).take limit), db)

/-- The result dictionary of `get_project_stats`.  For an absent namespace
the Python code returns `{"total_entries": 0, "total_hits": 0}` with no
`avg_compression` key at all, hence the `Option`. -/
structure ProjectStats where
  total_entries : ℕ
  total_hits : ℕ
  avg_compression : Option ℚ
deriving Repr, DecidableEq

/-- Round to the nearest integer, half to even — the rounding of Python's
built-in `round`. -/
def roundHalfEven (x : ℚ) : ℤ :=
  let f := ⌊x⌋
  let r := x - f
  if r < 1/2 then f
  else if 1/2 < r then f + 1
  else if f % 2 = 0 then f else f + 1

/-- Python `round(x, 1)`. -/
def round1 (x : ℚ) : ℚ := (roundHalfEven (x * 10) : ℚ) / 10

/-- `ChromaDbHandler.get_project_stats`. -/
def get_project_stats (db : ChromaDb) (project_id : String) : ProjectStats :=
  match get_project_namespace db project_id with
  | none => { total_entries := 0, total_hits := 0, avg_compression := none }
  | some ns =>
      let count := ns.length
      let total_hits := (ns.map (fun m => m.times_accessed)).sum
      let total_compression := (ns.map (fun m => m.compression_ratio)).sum
      let avg_compression : ℚ := if 0 < count then total_compression / count else 0
      { total_entries := count
        total_hits := total_hits
        avg_compression := some (round1 avg_compression) }

/-- `ChromaDbHandler.delete_entries`: `collection.delete(ids)` removes the
entries whose id occurs in the list (missing ids are ignored by the store),
and the method returns `len(entry_ids)`. -/
def delete_entries (db : ChromaDb) (project_id : String)
    (entry_ids : List String) : ℕ × ChromaDb :=
  match get_project_namespace db project_id with
  | none => (0, db)
  | some ns =>
      (entry_ids.length,
        setCollection db (collectionName project_id)
          (ns.filter (fun e => !(entry_ids.contains e.entry_id))))

/-- `ChromaDbHandler.clear_project_cache`: reads the count, then deletes the
whole collection. -/
def clear_project_cache (db : ChromaDb) (project_id : String) : ℕ × ChromaDb :=
  match get_project_namespace db project_id with
  | none => (0, db)
  | some ns => (ns.length, removeCollection db (collectionName project_id))

/-- `ChromaDbHandler.increment_entry_hit`: `false` when the namespace or the
entry is absent; otherwise writes back the found entry with
`times_accessed + 1` and `last_accessed_at = now` and returns `true`. -/
def increment_entry_hit (db : ChromaDb) (now : ℕ)
    (project_id entry_id : String) : Bool × ChromaDb :=
  match get_project_namespace db project_id with
  | none => (false, db)
  | some ns =>
      match ns.find? (fun e => e.entry_id == entry_id) with
      | none => (false, db)
      | some e =>
          (true,
            setCollection db (collectionName project_id)
              (ns.map (fun x =>
                if x.entry_id == entry_id then
                  { e with times_accessed := e.times_accessed + 1
                           last_accessed_at := now }
                else x)))

/-- `ChromaDbHandler.vote_entry`: `(0, 0)` when the namespace or the entry is
absent; `like` increments `likes`, `dislike` increments `dislikes`, any other
kind changes nothing; the updated pair is written back and returned. -/
def vote_entry (db : ChromaDb) (project_id entry_id vote_type : String) :
    (ℕ × ℕ) × ChromaDb :=
  match get_project_namespace db project_id with
  | none => ((0, 0), db)
  | some ns =>
      match ns.find? (fun e => e.entry_id == entry_id) with
      | none => ((0, 0), db)
      | some e =>
          let current_likes := if vote_type == "like" then e.likes + 1 else e.likes
          let current_dislikes :=
            if vote_type == "dislike" then e.dislikes + 1 else e.dislikes
          (((current_likes, current_dislikes)),
            setCollection db (collectionName project_id)
              (ns.map (fun x =>
                if x.entry_id == entry_id then
                  { e with likes := current_likes, dislikes := current_dislikes }
                else x)))

/-- First entry of the namespace with the given id, as `collection.get` with
an id list retrieves it. -/
def findEntry (db : ChromaDb) (project_id entry_id : String) :
    Option CachedPromptEntry :=
  (get_project_namespace db project_id).bind
    (fun ns => ns.find? (fun e => e.entry_id == entry_id))

/-! ### LLM providers (`llm_provider.py`) -/

/-- Python `needle in hay` on character lists. -/
def subList (needle : List Char) : List Char → Bool
  | [] => needle.isEmpty
  | c :: t => needle.isPrefixOf (c :: t) || subList needle t

/-- Python `needle in hay` on strings. -/
def strIn (needle hay : String) : Bool :=
  subList needle.data hay.data

/-- Python `s.lower()`: per-character lowercasing (the characters of
`String.toLower`, written over the character list so it evaluates). -/
def strLower (s : String) : String :=
  String.mk (s.data.map Char.toLower)

/-- `MockLLMProvider.RESPONSES["rag"]`. -/
def mockResponseRag : String :=
  "RAG (Retrieval-Augmented Generation) is a technique that enhances LLM " ++
  "outputs by retrieving relevant documents from a knowledge base before " ++
  "generating a response. It combines retrieval-based systems with generative " ++
  "models across three stages: indexing, retrieval, and augmented generation."

/-- `MockLLMProvider.RESPONSES["compression"]`. -/
def mockResponseCompression : String :=
  "Text compression in LLM systems reduces token usage while preserving " ++
  "semantic meaning. Techniques include extractive summarization, abstractive " ++
  "compression, and token-level optimization. Compression ratios of 40-60% " ++
  "are common without significant information loss."

/-- `MockLLMProvider.RESPONSES["cache"]`. -/
def mockResponseCache : String :=
  "Semantic caching stores LLM responses indexed by query meaning rather " ++
  "than exact string matches. Using cosine similarity on embeddings, it " ++
  "returns cached responses instantly when similarity exceeds the threshold."

/-- `MockLLMProvider.RESPONSES["llm"]`. -/
def mockResponseLlm : String :=
  "Large Language Models are deep neural networks trained on vast text " ++
  "corpora. Modern LLMs use transformer architectures with attention " ++
  "mechanisms for text generation, summarization, translation, and reasoning."

/-- `MockLLMProvider.RESPONSES["default"]`. -/
def mockResponseDefault : String :=
  "Thank you for your query. The system has analyzed relevant documents " ++
  "and synthesized a comprehensive response. For more specific results, " ++
  "try refining your query with targeted keywords."

/-- `MockLLMProvider.complete`: canned response by keyword matching on the
lower-cased prompt; never fails. -/
def mockComplete (prompt : String) (_system_prompt : String) : String :=
  let q := strLower prompt
  if strIn "rag" q || strIn "retrieval" q then mockResponseRag
  else if strIn "compress" q then mockResponseCompression
  else if strIn "cache" q || strIn "caching" q then mockResponseCache
  else if strIn "llm" q || strIn "language model" q || strIn "gpt" q then
    mockResponseLlm
  else mockResponseDefault

/-- One completion provider of the chain: its reported `name`, whether it is
a `MockLLMProvider` (the `isinstance` check of the chain constructor), and
its `complete` method (`Except.error` models a raised exception). -/
structure LLMProvider where
  name : String
  isMock : Bool
  complete : String → String → Except String String

/-- The `MockLLMProvider` instance appended by the chain constructor. -/
def mockProvider : LLMProvider :=
  { name := "mock", isMock := true
    complete := fun p s => .ok (mockComplete p s) }

/-- `ResilientLLMProvider.__init__`: append a `MockLLMProvider` when none of
the given providers is one. -/
def mkResilientProviders (providers : List LLMProvider) : List LLMProvider :=
  if providers.any (fun p => p.isMock) then providers
  else providers ++ [mockProvider]

/-- The provider loop of `ResilientLLMProvider.complete`: first success wins
and its provider name is recorded; the unreachable fall-through after the
loop reports `mock` with the default canned response. -/
def resilientTry : List LLMProvider → String → String → String × String
  | [], _prompt, _system_prompt => ("mock", mockResponseDefault)
  | p :: rest, prompt, system_prompt =>
      match p.complete prompt system_prompt with
      | .ok result => (p.name, result)
      | .error _ => resilientTry rest prompt system_prompt

/-- `ResilientLLMProvider.complete` for a chain built from `providers`:
returns the recorded serving-provider name and the completion text, and by
construction never fails. -/
def resilientComplete (providers : List LLMProvider)
    (prompt system_prompt : String) : String × String :=
  resilientTry (mkResilientProviders providers) prompt system_prompt

/-- Outcome of one Gemini HTTP attempt with one API key: a parsed 200
response, a 429 rate limit, another non-200 status, or a transport-level
`httpx.HTTPError`. -/
inductive GeminiOutcome where
  | ok (text : String)
  | rateLimited
  | badStatus (code : ℕ)
  | netError (msg : String)
deriving Repr, DecidableEq

/-- The exceptions `GeminiLLMProvider.complete` can raise: the remembered
rate-limit error (`f"Gemini rate-limited (key {attempt + 1})"`), a remembered
network error, an immediately raised non-200 status, or the generic
all-keys-exhausted error used when no error was remembered. -/
inductive GeminiError where
  | rateLimited (keyNo : ℕ)
  | network (msg : String)
  | status (code : ℕ)
  | exhausted
deriving Repr, DecidableEq

/-- The key list and rotation cursor of a `GeminiLLMProvider` instance. -/
structure GeminiState where
  api_keys : List String
  current_key_index : ℕ
deriving Repr, DecidableEq

/-- `GeminiLLMProvider._rotate_key`: return the current key and advance the
cursor by one modulo the number of keys. -/
def rotate_key (st : GeminiState) : String × GeminiState :=
  (st.api_keys.getD st.current_key_index "",
    { st with current_key_index := (st.current_key_index + 1) % st.api_keys.length })

/-- The `for attempt in range(len(self.api_keys))` loop of
`GeminiLLMProvider.complete`.  `respond` gives the HTTP outcome for an API
key; 429 and network errors are remembered and skipped, any other non-200
status raises at once, and on exhaustion the last remembered error (or the
generic exhausted error) is raised. -/
def geminiLoop (respond : String → GeminiOutcome) :
    GeminiState → ℕ → ℕ → Option GeminiError →
    Except GeminiError String × GeminiState
  | st, 0, _attempt, lastError => (.error (lastError.getD .exhausted), st)
  | st, attemptsLeft + 1, attempt, _lastError =>
      let r := rotate_key st
      match respond r.1 with
      | .ok text => (.ok text, r.2)
      | .rateLimited =>
          geminiLoop respond r.2 attemptsLeft (attempt + 1)
            (some (.rateLimited (attempt + 1)))
      | .badStatus code => (.error (.status code), r.2)
      | .netError m =>
          geminiLoop respond r.2 attemptsLeft (attempt + 1) (some (.network m))

/-- `GeminiLLMProvider.complete`: try each key at most once, starting from
the persisted cursor. -/
def geminiComplete (respond : String → GeminiOutcome) (st : GeminiState) :
    Except GeminiError String × GeminiState :=
  geminiLoop respond st st.api_keys.length 0 none

/-- Outcomes that the key loop skips: 429 and transport errors. -/
def isSkip : GeminiOutcome → Bool
  | .rateLimited => true
  | .netError _ => true
  | _ => false

/-- The remembered error for a skipped outcome observed at the given 1-based
attempt number. -/
def skipErrorOf : GeminiOutcome → ℕ → GeminiError
  | .rateLimited, n => .rateLimited n
  | .netError m, _ => .network m
  | _, _ => .exhausted

/-! ### Concrete instances used to exercise the model -/

/-- A sample cached entry. -/
def e0 : CachedPromptEntry :=
  { entry_id := "a", project_id := "p", user_id := "u",
    key_embedding := [1], prompt := "hello", answer := "world",
    created_at := 0, times_accessed := 1, last_accessed_at := 0 }

/-- A sample store holding one namespace with one entry. -/
def dbEx : ChromaDb := [("project_p", [e0])]

/-- A sample distance function: distance 0 to the vector `[1]`, distance
one half to anything else. -/
def distEx : List ℚ → List ℚ → ℚ :=
  fun _ e => if e = [1] then 0 else 1/2

/-- Three sample API keys. -/
def keysEx : List String := ["k1", "k2", "k3"]

/-- Sample HTTP behaviour: the first two keys are rate-limited, the third
succeeds. -/
def respondEx : String → GeminiOutcome :=
  fun k => if k = "k1" then .rateLimited
    else if k = "k2" then .rateLimited
    else .ok "resp3"

/-- A provider that always raises. -/
def failProvEx : LLMProvider :=
  { name := "gemini", isMock := false, complete := fun _ _ => .error "boom" }

/-- A provider that always succeeds. -/
def okProvEx : LLMProvider :=
  { name := "dell", isMock := false, complete := fun _ _ => .ok "fine" }

/-! ### Helper lemmas -/

instance : IsTotal CachedPromptEntry hybridDesc :=
  ⟨fun a b => le_total (hybridScore b) (hybridScore a)⟩

instance : IsTrans CachedPromptEntry hybridDesc :=
  ⟨fun _ _ _ hab hbc => le_trans hbc hab⟩

theorem filter_orderedInsert_hybrid (a : CachedPromptEntry) (v : ℚ) :
    ∀ l : List CachedPromptEntry,
      (List.orderedInsert hybridDesc a l).filter (fun x => hybridScore x == v) =
        if hybridScore a = v then
          a :: l.filter (fun x => hybridScore x == v)
        else l.filter (fun x => hybridScore x == v)
  | [] => by
      by_cases hv : hybridScore a = v <;>
        simp [List.filter_cons, hv]
  | b :: t => by
      by_cases hab : hybridDesc a b
      · rw [List.orderedInsert_of_le _ _ hab]
        by_cases hv : hybridScore a = v <;>
          simp [List.filter_cons, hv]
      · have hlt : hybridScore a < hybridScore b := lt_of_not_le hab
        rw [show List.orderedInsert hybridDesc a (b :: t) =
            b :: List.orderedInsert hybridDesc a t from if_neg hab]
        by_cases hv : hybridScore a = v
        · have hbv : ¬ hybridScore b = v := fun hb =>
            absurd (hv.trans hb.symm) (ne_of_lt hlt)
          simp [List.filter_cons, hbv, hv, filter_orderedInsert_hybrid a v t]
        · by_cases hbv : hybridScore b = v <;>
            simp [List.filter_cons, hbv, hv, filter_orderedInsert_hybrid a v t]

theorem filter_insertionSort_hybrid (v : ℚ) :
    ∀ l : List CachedPromptEntry,
      (l.insertionSort hybridDesc).filter (fun x => hybridScore x == v) =
        l.filter (fun x => hybridScore x == v)
  | [] => rfl
  | a :: t => by
      show (List.orderedInsert hybridDesc a (t.insertionSort hybridDesc)).filter _ = _
      rw [filter_orderedInsert_hybrid]
      by_cases hv : hybridScore a = v <;>
        simp [List.filter_cons, hv, filter_insertionSort_hybrid v t]

/-- Stability of the hybrid re-ranking: a tie that appears in some order in
the sorted list already appeared in that order among the candidates. -/
theorem pair_sublist_of_insertionSort_hybrid {a b : CachedPromptEntry}
    {l : List CachedPromptEntry}
    (h : [a, b] <+ l.insertionSort hybridDesc)
    (he : hybridScore a = hybridScore b) : [a, b] <+ l := by
  have hf := h.filter (fun x => hybridScore x == hybridScore a)
  rw [filter_insertionSort_hybrid] at hf
  have hpair : ([a, b].filter (fun x => hybridScore x == hybridScore a)) = [a, b] := by
    simp [List.filter, he]
  rw [hpair] at hf
  exact hf.trans (List.filter_sublist _)

theorem getCollection_setCollection_isSome {name : String}
    (ns : List CachedPromptEntry) :
    ∀ db : ChromaDb, (getCollection db name).isSome →
      getCollection (setCollection db name ns) name = some ns
  | [], h => by simp [getCollection] at h
  | c :: t, h => by
      unfold getCollection at h
      unfold getCollection setCollection
      rw [List.map_cons]
      by_cases hc : (c.1 == name) = true
      · rw [if_pos hc, List.find?_cons_of_pos _ (by simpa using hc)]
        rfl
      · rw [if_neg hc, List.find?_cons_of_neg _ (by simpa using hc)]
        rw [List.find?_cons_of_neg _ (by simpa using hc)] at h
        exact getCollection_setCollection_isSome ns t h

theorem get_project_namespace_set {db : ChromaDb} {project_id : String}
    {ns0 : List CachedPromptEntry} (ns : List CachedPromptEntry)
    (h : get_project_namespace db project_id = some ns0) :
    get_project_namespace (setCollection db (collectionName project_id) ns)
      project_id = some ns :=
  getCollection_setCollection_isSome ns db
    (by unfold get_project_namespace at h; rw [h]; rfl)

theorem getCollection_removeCollection_self (db : ChromaDb) (name : String) :
    getCollection (removeCollection db name) name = none := by
  unfold getCollection removeCollection
  rw [List.find?_eq_none.mpr]
  · rfl
  · intro c hc
    have := List.of_mem_filter hc
    simpa using this

theorem not_mem_project_namespaces_remove (db : ChromaDb) (name : String) :
    name ∉ project_namespaces (removeCollection db name) := by
  intro hmem
  unfold project_namespaces removeCollection at hmem
  obtain ⟨c, hc, hcname⟩ := List.mem_map.mp hmem
  have := List.of_mem_filter hc
  rw [hcname] at this
  simp at this

theorem mem_pull_entry {dist : List ℚ → List ℚ → ℚ} {db : ChromaDb}
    {project_id : String} {q : List ℚ} {limit : ℕ} {threshold : ℚ}
    {e : CachedPromptEntry}
    (h : e ∈ pull_entry dist db project_id q limit threshold) :
    ∃ ns s, get_project_namespace db project_id = some ns ∧ s ∈ ns ∧
      e = { s with score := 1 - dist q s.key_embedding } ∧
      ¬ (1 - dist q s.key_embedding < threshold) := by
  unfold pull_entry at h
  split at h
  · exact absurd h (List.not_mem_nil e)
  · rename_i ns hns
    split at h
    · exact absurd h (List.not_mem_nil e)
    · obtain ⟨r, hr, hsome⟩ := List.mem_filterMap.mp h
      have hrmem : r ∈ ns.map (fun s => (s, dist q s.key_embedding)) := by
        have h1 : r ∈ (ns.map (fun s => (s, dist q s.key_embedding))).insertionSort distAsc :=
          (List.take_sublist _ _).mem hr
        exact (List.mem_insertionSort distAsc).mp h1
      obtain ⟨s, hs, hrs⟩ := List.mem_map.mp hrmem
      subst hrs
      by_cases hth : 1 - (s, dist q s.key_embedding).2 < threshold
      · rw [if_pos hth] at hsome; exact absurd hsome (by simp)
      · rw [if_neg hth] at hsome
        refine ⟨ns, s, hns, hs, ?_, ?_⟩
        · exact (Option.some.inj hsome).symm
        · exact hth

theorem pull_entry_eq_nil_of_below_threshold {dist : List ℚ → List ℚ → ℚ}
    {db : ChromaDb} {project_id : String} {q : List ℚ} (limit : ℕ)
    {threshold : ℚ} {ns : List CachedPromptEntry}
    (hns : get_project_namespace db project_id = some ns)
    (hbelow : ∀ s ∈ ns, 1 - dist q s.key_embedding < threshold) :
    pull_entry dist db project_id q limit threshold = [] := by
  unfold pull_entry
  rw [hns]
  show (if ns.length = 0 then [] else _) = []
  by_cases hlen : ns.length = 0
  · rw [if_pos hlen]
  · rw [if_neg hlen]
    apply List.filterMap_eq_nil_iff.mpr
    intro r hr
    have hrmem : r ∈ ns.map (fun s => (s, dist q s.key_embedding)) := by
      have h1 : r ∈ (ns.map (fun s => (s, dist q s.key_embedding))).insertionSort distAsc :=
        (List.take_sublist _ _).mem hr
      exact (List.mem_insertionSort distAsc).mp h1
    obtain ⟨s, hs, hrs⟩ := List.mem_map.mp hrmem
    have : 1 - r.2 < threshold := by rw [← hrs]; exact hbelow s hs
    simp [this]

theorem find?_update_entry {entry_id : String} {e : CachedPromptEntry}
    (u : CachedPromptEntry) (hu : u.entry_id = e.entry_id) :
    ∀ ns : List CachedPromptEntry,
      ns.find? (fun x => x.entry_id == entry_id) = some e →
      (ns.map (fun x => if x.entry_id == entry_id then u else x)).find?
        (fun x => x.entry_id == entry_id) = some u
  | [], hfind => by simp at hfind
  | x :: t, hfind => by
      rw [List.map_cons]
      by_cases hx : (x.entry_id == entry_id) = true
      · have hex : e = x := by
          rw [List.find?_cons_of_pos (p := fun y : CachedPromptEntry => y.entry_id == entry_id) _ hx]
            at hfind
          exact (Option.some.inj hfind).symm
        have hue : (u.entry_id == entry_id) = true := by
          rw [hu, hex]; exact hx
        rw [if_pos hx]
        exact List.find?_cons_of_pos (p := fun y : CachedPromptEntry => y.entry_id == entry_id) _ hue
      · rw [if_neg hx]
        rw [List.find?_cons_of_neg (p := fun y : CachedPromptEntry => y.entry_id == entry_id) _ hx]
          at hfind
        rw [List.find?_cons_of_neg (p := fun y : CachedPromptEntry => y.entry_id == entry_id) _ hx]
        exact find?_update_entry u hu t hfind

theorem getCollection_append_of_none {db : ChromaDb} {name : String}
    (h : getCollection db name = none) (ns : List CachedPromptEntry) :
    getCollection (db ++ [(name, ns)]) name = some ns := by
  unfold getCollection at h ⊢
  have hfind : db.find? (fun c => c.1 == name) = none := by
    cases hf : db.find? (fun c => c.1 == name) with
    | none => rfl
    | some c => rw [hf] at h; simp at h
  rw [List.find?_append, hfind]
  simp

/-- `findEntry` unpacked: the namespace exists and contains the entry as its
first match. -/
theorem findEntry_elim {db : ChromaDb} {project_id entry_id : String}
    {e : CachedPromptEntry} (h : findEntry db project_id entry_id = some e) :
    ∃ ns, get_project_namespace db project_id = some ns ∧
      ns.find? (fun x => x.entry_id == entry_id) = some e := by
  unfold findEntry at h
  cases hns : get_project_namespace db project_id with
  | none => rw [hns] at h; simp at h
  | some ns => rw [hns] at h; exact ⟨ns, rfl, h⟩

theorem increment_entry_hit_found {db : ChromaDb} (now : ℕ)
    {project_id entry_id : String} {e : CachedPromptEntry}
    (h : findEntry db project_id entry_id = some e) :
    increment_entry_hit db now project_id entry_id =
      (true,
        setCollection db (collectionName project_id)
          (((get_project_namespace db project_id).getD []).map (fun x =>
            if x.entry_id == entry_id then
              { e with times_accessed := e.times_accessed + 1
                       last_accessed_at := now }
            else x))) ∧
    findEntry (increment_entry_hit db now project_id entry_id).2
        project_id entry_id =
      some { e with times_accessed := e.times_accessed + 1
                    last_accessed_at := now } := by
  obtain ⟨ns, hns, hfind⟩ := findEntry_elim h
  have heq : increment_entry_hit db now project_id entry_id =
      (true,
        setCollection db (collectionName project_id)
          (ns.map (fun x =>
            if x.entry_id == entry_id then
              { e with times_accessed := e.times_accessed + 1
                       last_accessed_at := now }
            else x))) := by
    simp only [increment_entry_hit, hns, hfind]
  constructor
  · rw [heq, hns]
    rfl
  · rw [heq]
    unfold findEntry
    rw [get_project_namespace_set _ hns]
    exact find?_update_entry (e := e)
      { e with times_accessed := e.times_accessed + 1, last_accessed_at := now }
      rfl ns hfind

theorem vote_entry_found {db : ChromaDb} {project_id entry_id : String}
    (vote_type : String) {e : CachedPromptEntry}
    (h : findEntry db project_id entry_id = some e) :
    (vote_entry db project_id entry_id vote_type).1 =
      (if vote_type == "like" then e.likes + 1 else e.likes,
        if vote_type == "dislike" then e.dislikes + 1 else e.dislikes) ∧
    findEntry (vote_entry db project_id entry_id vote_type).2
        project_id entry_id =
      some { e with
              likes := if vote_type == "like" then e.likes + 1 else e.likes
              dislikes :=
                if vote_type == "dislike" then e.dislikes + 1 else e.dislikes } := by
  obtain ⟨ns, hns, hfind⟩ := findEntry_elim h
  have heq : vote_entry db project_id entry_id vote_type =
      ((if vote_type == "like" then e.likes + 1 else e.likes,
          if vote_type == "dislike" then e.dislikes + 1 else e.dislikes),
        setCollection db (collectionName project_id)
          (ns.map (fun x =>
            if x.entry_id == entry_id then
              { e with
                 likes := if vote_type == "like" then e.likes + 1 else e.likes
                 dislikes :=
                   if vote_type == "dislike" then e.dislikes + 1 else e.dislikes }
            else x))) := by
    simp only [vote_entry, hns, hfind]
  constructor
  · rw [heq]
  · rw [heq]
    unfold findEntry
    rw [get_project_namespace_set _ hns]
    exact find?_update_entry (e := e)
      { e with
         likes := if vote_type == "like" then e.likes + 1 else e.likes
         dislikes := if vote_type == "dislike" then e.dislikes + 1 else e.dislikes }
      rfl ns hfind

theorem geminiLoop_step (respond : String → GeminiOutcome) (st : GeminiState)
    (k a : ℕ) (le : Option GeminiError) :
    geminiLoop respond st (k + 1) a le =
      match respond (st.api_keys.getD st.current_key_index "") with
      | .ok text =>
          (.ok text, { st with current_key_index :=
              (st.current_key_index + 1) % st.api_keys.length })
      | .rateLimited =>
          geminiLoop respond
            { st with current_key_index :=
                (st.current_key_index + 1) % st.api_keys.length }
            k (a + 1) (some (.rateLimited (a + 1)))
      | .badStatus code =>
          (.error (.status code), { st with current_key_index :=
              (st.current_key_index + 1) % st.api_keys.length })
      | .netError m =>
          geminiLoop respond
            { st with current_key_index :=
                (st.current_key_index + 1) % st.api_keys.length }
            k (a + 1) (some (.network m)) := rfl

theorem geminiLoop_succeeds (respond : String → GeminiOutcome)
    (keys : List String) (t : String) :
    ∀ (m k c a : ℕ) (le : Option GeminiError), c < keys.length → m < k →
      (∀ i, i < m → isSkip (respond (keys.getD ((c + i) % keys.length) "")) = true) →
      respond (keys.getD ((c + m) % keys.length) "") = .ok t →
      geminiLoop respond ⟨keys, c⟩ k a le =
        (.ok t, ⟨keys, (c + m + 1) % keys.length⟩)
  | 0, k, c, a, le, hc, hmk, _hskips, hok => by
      cases k with
      | zero => exact absurd hmk (by omega)
      | succ k2 =>
          have hc0 : (c + 0) % keys.length = c := by
            simpa using Nat.mod_eq_of_lt hc
          rw [hc0] at hok
          simp only [geminiLoop, rotate_key, hok]
  | m + 1, k, c, a, le, hc, hmk, hskips, hok => by
      cases k with
      | zero => exact absurd hmk (by omega)
      | succ k2 =>
          have hn : 0 < keys.length := by omega
          have hc0 : (c + 0) % keys.length = c := by
            simpa using Nat.mod_eq_of_lt hc
          have h0 := hskips 0 (by omega)
          rw [hc0] at h0
          have hc1 : (c + 1) % keys.length < keys.length := Nat.mod_lt _ hn
          have hmod : ∀ j : ℕ, ((c + 1) % keys.length + j) % keys.length =
              (c + (j + 1)) % keys.length := by
            intro j
            rw [Nat.mod_add_mod]
            congr 1
            omega
          have hskips2 : ∀ i, i < m →
              isSkip (respond (keys.getD
                (((c + 1) % keys.length + i) % keys.length) "")) = true := by
            intro i hi
            rw [hmod i]
            exact hskips (i + 1) (by omega)
          have hok2 : respond (keys.getD
              (((c + 1) % keys.length + m) % keys.length) "") = .ok t := by
            rw [hmod m]
            exact hok
          have hih := geminiLoop_succeeds respond keys t m k2
            ((c + 1) % keys.length) (a + 1)
            (some (skipErrorOf (respond (keys.getD c "")) (a + 1)))
            hc1 (by omega) hskips2 hok2
          have hcur : ((c + 1) % keys.length + m + 1) % keys.length =
              (c + (m + 1) + 1) % keys.length := by
            rw [show (c + 1) % keys.length + m + 1 =
                (c + 1) % keys.length + (m + 1) from by omega, Nat.mod_add_mod]
            congr 1
            omega
          cases houtcome : respond (keys.getD c "") with
          | ok s => rw [houtcome] at h0; simp [isSkip] at h0
          | badStatus code => rw [houtcome] at h0; simp [isSkip] at h0
          | rateLimited =>
              simp only [geminiLoop, rotate_key, houtcome]
              simp only [houtcome, skipErrorOf] at hih
              rw [hih, hcur]
          | netError msg =>
              simp only [geminiLoop, rotate_key, houtcome]
              simp only [houtcome, skipErrorOf] at hih
              rw [hih, hcur]

theorem geminiLoop_allSkip (respond : String → GeminiOutcome)
    (keys : List String)
    (hall : ∀ key ∈ keys, isSkip (respond key) = true) :
    ∀ (k c a : ℕ) (le : Option GeminiError), 0 < k → c < keys.length →
      geminiLoop respond ⟨keys, c⟩ k a le =
        (.error (skipErrorOf
            (respond (keys.getD ((c + (k - 1)) % keys.length) "")) (a + k)),
          ⟨keys, (c + k) % keys.length⟩)
  | 0, c, a, le, hk, _hc => absurd hk (by omega)
  | k + 1, c, a, le, _hk, hc => by
      have hn : 0 < keys.length := by omega
      have hmem : keys.getD c "" ∈ keys := by
        rw [List.getD_eq_getElem keys "" hc]
        exact List.getElem_mem hc
      have h0 := hall _ hmem
      cases k with
      | zero =>
          have hck : (c + (1 - 1)) % keys.length = c := by
            simpa using Nat.mod_eq_of_lt hc
          cases houtcome : respond (keys.getD c "") with
          | ok s => rw [houtcome] at h0; simp [isSkip] at h0
          | badStatus code => rw [houtcome] at h0; simp [isSkip] at h0
          | rateLimited =>
              simp only [geminiLoop, rotate_key, houtcome]
              rw [hck, houtcome]
              simp [skipErrorOf]
          | netError msg =>
              simp only [geminiLoop, rotate_key, houtcome]
              rw [hck, houtcome]
              simp [skipErrorOf]
      | succ k2 =>
          have hc1 : (c + 1) % keys.length < keys.length := Nat.mod_lt _ hn
          have hkey : ((c + 1) % keys.length + (k2 + 1 - 1)) % keys.length =
              (c + (k2 + 1 + 1 - 1)) % keys.length := by
            rw [Nat.mod_add_mod]
            congr 1
            omega
          have hcur : ((c + 1) % keys.length + (k2 + 1)) % keys.length =
              (c + (k2 + 1 + 1)) % keys.length := by
            rw [Nat.mod_add_mod]
            congr 1
            omega
          have harith : a + 1 + (k2 + 1) = a + (k2 + 1 + 1) := by omega
          cases houtcome : respond (keys.getD c "") with
          | ok s => rw [houtcome] at h0; simp [isSkip] at h0
          | badStatus code => rw [houtcome] at h0; simp [isSkip] at h0
          | rateLimited =>
              have hih := geminiLoop_allSkip respond keys hall (k2 + 1)
                ((c + 1) % keys.length) (a + 1)
                (some (.rateLimited (a + 1))) (by omega) hc1
              conv_lhs => rw [geminiLoop_step]
              simp only [houtcome]
              rw [hih, hkey, hcur, harith]
          | netError msg =>
              have hih := geminiLoop_allSkip respond keys hall (k2 + 1)
                ((c + 1) % keys.length) (a + 1)
                (some (.network msg)) (by omega) hc1
              conv_lhs => rw [geminiLoop_step]
              simp only [houtcome]
              rw [hih, hkey, hcur, harith]

theorem resilientTry_append_of_fail {prompt system_prompt : String} :
    ∀ pre : List LLMProvider,
      (∀ p ∈ pre, ∃ err, p.complete prompt system_prompt = .error err) →
      ∀ rest, resilientTry (pre ++ rest) prompt system_prompt =
        resilientTry rest prompt system_prompt
  | [], _hfail, rest => rfl
  | p :: pre2, hfail, rest => by
      obtain ⟨err, herr⟩ := hfail p (List.mem_cons_self p pre2)
      rw [List.cons_append]
      show (match p.complete prompt system_prompt with
        | .ok result => (p.name, result)
        | .error _ => resilientTry (pre2 ++ rest) prompt system_prompt) = _
      rw [herr]
      exact resilientTry_append_of_fail pre2
        (fun q hq => hfail q (List.mem_cons_of_mem p hq)) rest

theorem resilientTry_cons_ok {p : LLMProvider} {rest : List LLMProvider}
    {prompt system_prompt r : String}
    (hok : p.complete prompt system_prompt = .ok r) :
    resilientTry (p :: rest) prompt system_prompt = (p.name, r) := by
  show (match p.complete prompt system_prompt with
    | .ok result => (p.name, result)
    | .error _ => resilientTry rest prompt system_prompt) = _
  rw [hok]

/-! ### Claim theorems -/

/-- C1: for every project namespace, query embedding (the embedding of the
prompt), `limit ≥ 1` and threshold, the list returned by `lookup_prompt` has
length at most `limit`, is sorted in non-increasing order of `hybridScore`
(similarity plus the clamped vote boost), ties keep the candidates'
original raw-similarity order (the stable sort), and every returned entry's
`score` field equals its raw similarity `1 - cosine_distance`, never its
hybrid score. -/
theorem C1_lookup_hybrid_ranking (dist : List ℚ → List ℚ → ℚ) (db : ChromaDb)
    (q : List ℚ) (project_id : String) (limit : ℕ) (threshold : ℚ)
    (hlim : 1 ≤ limit) (res : List CachedPromptEntry)
    (hres : (lookup_prompt dist db (.ok q) project_id limit threshold).1 = .ok res) :
    res.length ≤ limit ∧
    res.Pairwise (fun a b => hybridScore b ≤ hybridScore a) ∧
    (∀ a b, [a, b] <+ res → hybridScore a = hybridScore b →
      [a, b] <+ pull_entry dist db project_id q (limit * 3) threshold) ∧
    (∀ e ∈ res, e.score = 1 - dist q e.key_embedding) := by
  simp only [lookup_prompt] at hres
  split at hres
  · -- empty candidate pool
    have hnil : res = [] := by simpa using hres.symm
    subst hnil
    refine ⟨by simp, by simp, ?_, by simp⟩
    intro a b hab _heq
    simp at hab
  · -- non-empty candidate pool
    rename_i hne
    have hval : res =
        ((pull_entry dist db project_id q (limit * 3) threshold).insertionSort
          hybridDesc).take limit := by simpa using hres.symm
    subst hval
    refine ⟨?_, ?_, ?_, ?_⟩
    · exact List.length_take_le _ _
    · exact (List.sorted_insertionSort hybridDesc _).sublist (List.take_sublist _ _)
    · intro a b hab heq
      exact pair_sublist_of_insertionSort_hybrid
        (hab.trans (List.take_sublist _ _)) heq
    · intro e he
      have h1 : e ∈ (pull_entry dist db project_id q (limit * 3)
          threshold).insertionSort hybridDesc := (List.take_sublist _ _).mem he
      have h2 := (List.mem_insertionSort hybridDesc).mp h1
      obtain ⟨ns, s, _, _, heq, _⟩ := mem_pull_entry h2
      subst heq
      rfl

/-- C1 witness: a one-entry namespace at `limit = 1`, `threshold = 0`. -/
theorem C1_lookup_hybrid_ranking_witness :
    ([e0] : List CachedPromptEntry).length ≤ 1 ∧
    ∀ e ∈ ([e0] : List CachedPromptEntry),
      e.score = 1 - distEx [1] e.key_embedding := by
  have h := C1_lookup_hybrid_ranking distEx dbEx [1] "p" 1 0 (by decide) [e0]
    (by decide)
  exact ⟨h.1, h.2.2.2⟩

/-- C4: with an existing namespace and a successful embedding,
`cache_prompt` persists exactly one new entry with `times_accessed = 1`,
`created_at = last_accessed_at = now`, zero likes and dislikes, and returns
the freshly generated entry id; it fails with the namespace-not-found error
when no namespace exists for the project (no implicit creation), and an
embedding failure propagates unchanged with the store untouched. -/
theorem C4_cache_prompt_contract (db : ChromaDb) (emb : List ℚ)
    (newId : String) (now : ℕ)
    (project_id user_id prompt answer cp : String) (cr : ℚ) (ot ct : ℕ) :
    (∀ ns, get_project_namespace db project_id = some ns →
      cache_prompt db (.ok emb) newId now project_id user_id prompt answer
          cp cr ot ct =
        (.ok newId,
          setCollection db (collectionName project_id)
            (ns ++ [{ entry_id := newId, project_id := project_id,
                      user_id := user_id, key_embedding := emb,
                      prompt := prompt, answer := answer,
                      created_at := now, times_accessed := 1,
                      last_accessed_at := now,
                      compressed_prompt := cp, compression_ratio := cr,
                      original_tokens := ot, compressed_tokens := ct,
                      score := 1, likes := 0, dislikes := 0 }]))) ∧
    (get_project_namespace db project_id = none →
      cache_prompt db (.ok emb) newId now project_id user_id prompt answer
          cp cr ot ct =
        (.error ("No namespace found for project " ++ project_id ++ "."), db)) ∧
    (∀ err, cache_prompt db (.error err) newId now project_id user_id prompt
        answer cp cr ot ct = (.error err, db)) := by
  refine ⟨?_, ?_, ?_⟩
  · intro ns hns
    simp only [cache_prompt, push_entry, hns]
  · intro hns
    simp only [cache_prompt, push_entry, hns]
  · intro err
    rfl

/-- C4 witness: caching into the sample namespace. -/
theorem C4_cache_prompt_contract_witness :
    (cache_prompt dbEx (.ok [2]) "b" 5 "p" "u2" "q2" "a2" "" 0 0 0).1 =
      .ok "b" := by
  have h := (C4_cache_prompt_contract dbEx [2] "b" 5 "p" "u2" "q2" "a2" "" 0
    0 0).1 [e0] (by decide)
  rw [h]

/-- C5: `lookup_prompt` returns an empty list, not an error, when the
namespace is absent, when it is empty, and when no candidate reaches the
threshold; and it leaves the store state unchanged, so no stored entry's
`times_accessed`, `last_accessed_at`, `likes` or `dislikes` changes. -/
theorem C5_lookup_miss_and_readonly (dist : List ℚ → List ℚ → ℚ)
    (db : ChromaDb) (q : List ℚ) (project_id : String)
    (limit : ℕ) (threshold : ℚ) :
    (get_project_namespace db project_id = none →
      lookup_prompt dist db (.ok q) project_id limit threshold = (.ok [], db)) ∧
    (get_project_namespace db project_id = some [] →
      lookup_prompt dist db (.ok q) project_id limit threshold = (.ok [], db)) ∧
    (∀ ns, get_project_namespace db project_id = some ns →
      (∀ s ∈ ns, 1 - dist q s.key_embedding < threshold) →
      lookup_prompt dist db (.ok q) project_id limit threshold = (.ok [], db)) ∧
    (lookup_prompt dist db (.ok q) project_id limit threshold).2 = db := by
  refine ⟨?_, ?_, ?_, ?_⟩
  · intro hns
    simp [lookup_prompt, pull_entry, hns]
  · intro hns
    simp [lookup_prompt, pull_entry, hns]
  · intro ns hns hbelow
    have hp := pull_entry_eq_nil_of_below_threshold (limit * 3) hns hbelow
    simp [lookup_prompt, hp]
  · simp only [lookup_prompt]
    split <;> rfl

/-- C5 witness: lookup against an empty store. -/
theorem C5_lookup_miss_and_readonly_witness :
    lookup_prompt distEx [] (.ok [1]) "p" 1 0 = (.ok [], []) :=
  (C5_lookup_miss_and_readonly distEx [] [1] "p" 1 0).1 rfl

/-- C6: `increment_entry_hit` returns `false` without raising when the
namespace or the entry does not exist; when the entry exists it increments
that entry's `times_accessed` by exactly 1, sets `last_accessed_at` to the
current time and returns `true`; two consecutive calls increase
`times_accessed` by exactly 2 and leave `last_accessed_at` at the time of
the second call. -/
theorem C6_increment_hit (db : ChromaDb) (now now2 : ℕ)
    (project_id entry_id : String) :
    (get_project_namespace db project_id = none →
      increment_entry_hit db now project_id entry_id = (false, db)) ∧
    (∀ ns, get_project_namespace db project_id = some ns →
      ns.find? (fun e => e.entry_id == entry_id) = none →
      increment_entry_hit db now project_id entry_id = (false, db)) ∧
    (∀ e, findEntry db project_id entry_id = some e →
      (increment_entry_hit db now project_id entry_id).1 = true ∧
      findEntry (increment_entry_hit db now project_id entry_id).2
          project_id entry_id =
        some { e with times_accessed := e.times_accessed + 1
                      last_accessed_at := now }) ∧
    (∀ e, findEntry db project_id entry_id = some e →
      findEntry (increment_entry_hit
            (increment_entry_hit db now project_id entry_id).2
            now2 project_id entry_id).2 project_id entry_id =
        some { e with times_accessed := e.times_accessed + 2
                      last_accessed_at := now2 }) := by
  refine ⟨?_, ?_, ?_, ?_⟩
  · intro hns
    simp [increment_entry_hit, hns]
  · intro ns hns hfind
    simp [increment_entry_hit, hns, hfind]
  · intro e h
    obtain ⟨heq, hfound⟩ := increment_entry_hit_found now h
    exact ⟨by rw [heq], hfound⟩
  · intro e h
    have h1 := (increment_entry_hit_found now h).2
    have h2 := (increment_entry_hit_found now2 h1).2
    have harith : e.times_accessed + 1 + 1 = e.times_accessed + 2 := by omega
    simpa [harith] using h2

/-- C6 witness: incrementing the sample entry. -/
theorem C6_increment_hit_witness :
    (increment_entry_hit dbEx 7 "p" "a").1 = true :=
  ((C6_increment_hit dbEx 7 8 "p" "a").2.2.1 e0 (by decide)).1

/-- C7: for every existing entry, voting `like` increments `likes` by
exactly 1, voting `dislike` increments `dislikes` by exactly 1, and any
unrecognized kind changes neither counter and is not an error; in every case
the returned pair equals the entry's `(likes, dislikes)` after the
operation. -/
theorem C7_vote_entry (db : ChromaDb) (project_id entry_id : String)
    (vote_type : String) :
    (∀ e, findEntry db project_id entry_id = some e →
      (vote_entry db project_id entry_id "like").1 = (e.likes + 1, e.dislikes) ∧
      findEntry (vote_entry db project_id entry_id "like").2
          project_id entry_id = some { e with likes := e.likes + 1 }) ∧
    (∀ e, findEntry db project_id entry_id = some e →
      (vote_entry db project_id entry_id "dislike").1 =
        (e.likes, e.dislikes + 1) ∧
      findEntry (vote_entry db project_id entry_id "dislike").2
          project_id entry_id = some { e with dislikes := e.dislikes + 1 }) ∧
    (∀ e, findEntry db project_id entry_id = some e →
      vote_type ≠ "like" → vote_type ≠ "dislike" →
      (vote_entry db project_id entry_id vote_type).1 = (e.likes, e.dislikes) ∧
      findEntry (vote_entry db project_id entry_id vote_type).2
          project_id entry_id = some e) := by
  refine ⟨?_, ?_, ?_⟩
  · intro e h
    have hv := vote_entry_found "like" h
    have h1 : (("like" : String) == "like") = true := rfl
    have h2 : (("like" : String) == "dislike") = false := rfl
    constructor
    · rw [hv.1, h1, h2]
      simp
    · have := hv.2
      rw [h1, h2] at this
      simpa using this
  · intro e h
    have hv := vote_entry_found "dislike" h
    have h1 : (("dislike" : String) == "like") = false := rfl
    have h2 : (("dislike" : String) == "dislike") = true := rfl
    constructor
    · rw [hv.1, h1, h2]
      simp
    · have := hv.2
      rw [h1, h2] at this
      simpa using this
  · intro e h hnl hnd
    have hv := vote_entry_found vote_type h
    have h1 : (vote_type == "like") = false := beq_eq_false_iff_ne.mpr hnl
    have h2 : (vote_type == "dislike") = false := beq_eq_false_iff_ne.mpr hnd
    constructor
    · rw [hv.1, h1, h2]
      simp
    · have := hv.2
      rw [h1, h2] at this
      simpa using this

/-- C7 witness: a `like` vote on the sample entry. -/
theorem C7_vote_entry_witness :
    (vote_entry dbEx "p" "a" "like").1 = (1, 0) := by
  have h := ((C7_vote_entry dbEx "p" "a" "zzz").1 e0 (by decide)).1
  rw [h]
  decide

/-- C8 counterexample: for an absent namespace the returned dictionary is
`{"total_entries": 0, "total_hits": 0}` with no `avg_compression` key at
all, so `avg_compression` is not reported as 0 there, contrary to the
claim. -/
theorem C8_stats_counterexample :
    get_project_stats [] "p" =
      { total_entries := 0, total_hits := 0, avg_compression := none } ∧
    (get_project_stats [] "p").avg_compression ≠ some 0 := by
  constructor
  · rfl
  · intro h
    simp [get_project_stats, get_project_namespace, getCollection] at h

/-- C8 (amended): `get_stats` returns `total_entries` equal to the number of
entries, `total_hits` equal to the sum of per-entry `times_accessed`, and
`avg_compression` equal to the mean of per-entry `compression_ratio`
rounded to one decimal; all three are 0 for an empty namespace; for an
absent namespace `total_entries` and `total_hits` are 0 but the result
contains no `avg_compression` value at all. -/
theorem C8_stats (db : ChromaDb) (project_id : String) :
    (get_project_namespace db project_id = none →
      get_project_stats db project_id =
        { total_entries := 0, total_hits := 0, avg_compression := none }) ∧
    (get_project_namespace db project_id = some [] →
      get_project_stats db project_id =
        { total_entries := 0, total_hits := 0, avg_compression := some 0 }) ∧
    (∀ ns, get_project_namespace db project_id = some ns → 0 < ns.length →
      get_project_stats db project_id =
        { total_entries := ns.length
          total_hits := (ns.map (fun m => m.times_accessed)).sum
          avg_compression :=
            some (round1 ((ns.map (fun m => m.compression_ratio)).sum /
              ns.length)) }) := by
  refine ⟨?_, ?_, ?_⟩
  · intro hns
    simp [get_project_stats, hns]
  · intro hns
    simp only [get_project_stats, hns]
    have : round1 0 = 0 := by decide
    simp [this]
  · intro ns hns hlen
    simp [get_project_stats, hns, hlen]

/-- C8 witness: stats of the sample one-entry namespace. -/
theorem C8_stats_witness :
    get_project_stats dbEx "p" =
      { total_entries := 1, total_hits := 1, avg_compression := some 0 } := by
  have h := (C8_stats dbEx "p").2.2 [e0] (by decide) (by decide)
  rw [h]
  decide

/-- C9 counterexample: deleting a single nonexistent id from a one-entry
namespace removes nothing but still returns 1, so `delete_entries` does not
return the count of entries actually removed. -/
theorem C9_delete_counterexample :
    delete_entries dbEx "p" ["zzz"] = (1, dbEx) ∧ (1 : ℕ) ≠ 0 := by
  constructor
  · decide
  · decide

/-- C9 (amended): `delete_entries` returns the length of the requested id
list — which equals the count actually removed only when the requested ids
are distinct and all present — while `clear_namespace` returns the count of
entries removed by the whole-namespace wipe; both return 0, not an error,
when the namespace is absent. -/
theorem C9_delete_and_clear_counts (db : ChromaDb) (project_id : String)
    (entry_ids : List String) :
    (get_project_namespace db project_id = none →
      delete_entries db project_id entry_ids = (0, db) ∧
      clear_project_cache db project_id = (0, db)) ∧
    (∀ ns, get_project_namespace db project_id = some ns →
      (delete_entries db project_id entry_ids).1 = entry_ids.length ∧
      get_project_namespace (delete_entries db project_id entry_ids).2
          project_id =
        some (ns.filter (fun e => !(entry_ids.contains e.entry_id))) ∧
      clear_project_cache db project_id =
        (ns.length, removeCollection db (collectionName project_id)) ∧
      get_project_namespace (clear_project_cache db project_id).2
          project_id = none) := by
  constructor
  · intro hns
    constructor
    · simp [delete_entries, hns]
    · simp [clear_project_cache, hns]
  · intro ns hns
    have hdel : delete_entries db project_id entry_ids =
        (entry_ids.length,
          setCollection db (collectionName project_id)
            (ns.filter (fun e => !(entry_ids.contains e.entry_id)))) := by
      simp only [delete_entries, hns]
    have hclear : clear_project_cache db project_id =
        (ns.length, removeCollection db (collectionName project_id)) := by
      simp only [clear_project_cache, hns]
    refine ⟨by rw [hdel], ?_, hclear, ?_⟩
    · rw [hdel]
      exact get_project_namespace_set _ hns
    · rw [hclear]
      exact getCollection_removeCollection_self db (collectionName project_id)

/-- C9 witness: deleting the one existing entry by id. -/
theorem C9_delete_and_clear_counts_witness :
    (delete_entries dbEx "p" ["a"]).1 = 1 ∧
    clear_project_cache dbEx "p" = (1, removeCollection dbEx "project_p") := by
  have h := (C9_delete_and_clear_counts dbEx "p" ["a"]).2 [e0] (by decide)
  exact ⟨h.1, h.2.2.1⟩

/-- C10: after `clear_project_cache` on an existing namespace the namespace
itself no longer exists: `project_namespaces` no longer contains the
project's collection, a subsequent `cache_prompt` fails with the
namespace-not-found error, `lookup_prompt` returns an empty list, and
`create_project_namespace` succeeds again, recreating an empty namespace. -/
theorem C10_clear_removes_namespace (db : ChromaDb) (project_id : String)
    (ns : List CachedPromptEntry)
    (hns : get_project_namespace db project_id = some ns) :
    collectionName project_id ∉
      project_namespaces (clear_project_cache db project_id).2 ∧
    get_project_namespace (clear_project_cache db project_id).2 project_id =
      none ∧
    (∀ emb newId now user_id prompt answer cp cr ot ct,
      cache_prompt (clear_project_cache db project_id).2 (.ok emb) newId now
          project_id user_id prompt answer cp cr ot ct =
        (.error ("No namespace found for project " ++ project_id ++ "."),
          (clear_project_cache db project_id).2)) ∧
    (∀ dist q limit threshold,
      lookup_prompt dist (clear_project_cache db project_id).2 (.ok q)
          project_id limit threshold =
        (.ok [], (clear_project_cache db project_id).2)) ∧
    (∃ db3, create_project_namespace (clear_project_cache db project_id).2
        project_id = (.ok (), db3) ∧
      get_project_namespace db3 project_id = some []) := by
  have hdb2 : (clear_project_cache db project_id).2 =
      removeCollection db (collectionName project_id) := by
    simp [clear_project_cache, hns]
  have hnone : get_project_namespace (clear_project_cache db project_id).2
      project_id = none := by
    rw [hdb2]
    exact getCollection_removeCollection_self db (collectionName project_id)
  refine ⟨?_, hnone, ?_, ?_, ?_⟩
  · rw [hdb2]
    exact not_mem_project_namespaces_remove db (collectionName project_id)
  · intro emb newId now user_id prompt answer cp cr ot ct
    simp only [cache_prompt, push_entry, hnone]
  · intro dist q limit threshold
    simp [lookup_prompt, pull_entry, hnone]
  · refine ⟨(clear_project_cache db project_id).2 ++
      [(collectionName project_id, [])], ?_, ?_⟩
    · simp only [create_project_namespace, hnone]
    · exact getCollection_append_of_none hnone []

/-- C10 witness: clearing the sample namespace. -/
theorem C10_clear_removes_namespace_witness :
    get_project_namespace (clear_project_cache dbEx "p").2 "p" = none :=
  (C10_clear_removes_namespace dbEx "p" [e0] (by decide)).2.1

set_option maxRecDepth 100000

/-- C2 counterexample: with a single always-raising provider and the prompt
`"Tell me about RAG"`, the chain returns the Mock provider's RAG canned
response, not the canned default response — keyword matching selects the
response, so the claim that an all-raising chain returns the canned
*default* response at every prompt is false. -/
theorem C2_resilient_chain_counterexample :
    resilientComplete [failProvEx] "Tell me about RAG" "" =
      ("mock", mockResponseRag) ∧
    mockResponseRag ≠ mockResponseDefault := by
  constructor
  · decide
  · decide

/-- C2 (amended): the chain's `complete` never raises; it attempts its
providers strictly in order, returns the first successful provider's result
and records that provider's name; a Mock canned-response provider is
appended at construction when absent, so given a chain of providers that
all raise, `complete` returns the Mock provider's canned response selected
by keyword matching on the prompt — the canned default response when no
keyword matches — and reports the fallback provider's name instead of
raising. -/
theorem C2_resilient_chain (providers : List LLMProvider)
    (prompt system_prompt : String) :
    (∀ pre p post r, providers = pre ++ p :: post →
      (∀ q ∈ pre, ∃ err, q.complete prompt system_prompt = .error err) →
      p.complete prompt system_prompt = .ok r →
      resilientComplete providers prompt system_prompt = (p.name, r)) ∧
    ((∀ p ∈ providers, p.isMock = false) →
      (∀ p ∈ providers, ∃ err, p.complete prompt system_prompt = .error err) →
      resilientComplete providers prompt system_prompt =
        ("mock", mockComplete prompt system_prompt)) ∧
    (strIn "rag" (strLower prompt) = false →
      strIn "retrieval" (strLower prompt) = false →
      strIn "compress" (strLower prompt) = false →
      strIn "cache" (strLower prompt) = false →
      strIn "caching" (strLower prompt) = false →
      strIn "llm" (strLower prompt) = false →
      strIn "language model" (strLower prompt) = false →
      strIn "gpt" (strLower prompt) = false →
      mockComplete prompt system_prompt = mockResponseDefault) := by
  refine ⟨?_, ?_, ?_⟩
  · intro pre p post r hsplit hpre hok
    unfold resilientComplete mkResilientProviders
    by_cases hmock : providers.any (fun p => p.isMock)
    · rw [if_pos hmock, hsplit, resilientTry_append_of_fail pre hpre]
      exact resilientTry_cons_ok hok
    · rw [if_neg hmock, hsplit, List.append_assoc, List.cons_append,
        resilientTry_append_of_fail pre hpre]
      exact resilientTry_cons_ok hok
  · intro hnomock hfail
    unfold resilientComplete mkResilientProviders
    have hmock : providers.any (fun p => p.isMock) = false := by
      rw [List.any_eq_false]
      intro p hp
      rw [hnomock p hp]
      exact Bool.false_ne_true
    rw [if_neg (by rw [hmock]; exact Bool.false_ne_true),
      resilientTry_append_of_fail providers hfail]
    rfl
  · intro h1 h2 h3 h4 h5 h6 h7 h8
    simp [mockComplete, h1, h2, h3, h4, h5, h6, h7, h8]

/-- C2 witness: a failing provider followed by a succeeding one. -/
theorem C2_resilient_chain_witness :
    resilientComplete [failProvEx, okProvEx] "hello" "" = ("dell", "fine") :=
  (C2_resilient_chain [failProvEx, okProvEx] "hello" "").1
    [failProvEx] okProvEx [] "fine" rfl
    (fun q hq => by
      have : q = failProvEx := by simpa using hq
      exact ⟨"boom", by rw [this]; rfl⟩)
    rfl

/-- C3: on every call to the key-rotating Gemini provider's `complete` with
`n` configured credentials, each credential is attempted at most once (the
attempted key indices are pairwise distinct), the rotation cursor advances
by one modulo `n` after each attempt and its position persists in the
returned state; a rate-limited (429) or transport-failed credential is
skipped in favor of the next, so a success after `m` skips returns that
credential's response with the cursor just past it; and when every
credential is exhausted without success the call fails carrying the last
observed error, the cursor having wrapped around to its starting
position. -/
theorem C3_gemini_key_rotation (respond : String → GeminiOutcome)
    (keys : List String) (c : ℕ) (hc : c < keys.length) :
    (∀ m t, m < keys.length →
      (∀ i, i < m → isSkip (respond (keys.getD ((c + i) % keys.length) "")) = true) →
      respond (keys.getD ((c + m) % keys.length) "") = .ok t →
      geminiComplete respond ⟨keys, c⟩ =
        (.ok t, ⟨keys, (c + m + 1) % keys.length⟩)) ∧
    ((∀ key ∈ keys, isSkip (respond key) = true) →
      geminiComplete respond ⟨keys, c⟩ =
        (.error (skipErrorOf
            (respond (keys.getD ((c + (keys.length - 1)) % keys.length) ""))
            keys.length),
          ⟨keys, c⟩)) ∧
    (∀ i j, i < keys.length → j < keys.length → i ≠ j →
      (c + i) % keys.length ≠ (c + j) % keys.length) := by
  refine ⟨?_, ?_, ?_⟩
  · intro m t hm hskips hok
    exact geminiLoop_succeeds respond keys t m keys.length c 0 none hc hm
      hskips hok
  · intro hall
    have hn0 : 0 < keys.length := by omega
    have h := geminiLoop_allSkip respond keys hall keys.length c 0 none hn0 hc
    rw [Nat.zero_add, Nat.add_mod_right, Nat.mod_eq_of_lt hc] at h
    exact h
  · intro i j hi hj hij heq
    have h2 : i ≡ j [MOD keys.length] := Nat.ModEq.add_left_cancel' c heq
    have h3 : i % keys.length = j % keys.length := h2
    rw [Nat.mod_eq_of_lt hi, Nat.mod_eq_of_lt hj] at h3
    exact hij h3

/-- C3 witness: three credentials, the first two rate-limited, the third
succeeding — exactly three attempts, the third credential's response is
returned, and the cursor ends just past the third key. -/
theorem C3_gemini_key_rotation_witness :
    geminiComplete respondEx ⟨keysEx, 0⟩ = (.ok "resp3", ⟨keysEx, 0⟩) := by
  have h := (C3_gemini_key_rotation respondEx keysEx 0 (by decide)).1 2 "resp3"
    (by decide) (by decide) (by decide)
  simpa using h

end PromptCache
